import Mathlib

/-!
Verification development for the harsh habit tracker.

Calendar dates (`civil.Date`) are modelled as integers (proleptic-Gregorian
day ordinals): the temporal engine only ever compares dates, shifts them by a
number of days (`AddDays`) and scans inclusive ranges, all of which are
order-isomorphic to the integers.  Concrete test vectors below encode a 2025
date as its day-of-year ordinal (Jan d = d, Feb d = 31 + d, Mar d = 59 + d,
Aug d = 212 + d); a zero-valued `civil.Date{}` (far in the past) is encoded
as -1000.  Go `float64` amounts are modelled as exact rationals.
-/

/-- Explicit recorded result of a habit on a day, mirroring `storage.Outcome`
(src/internal/storage/log.go): `Result` is one of the codes "y", "n", "s",
plus an optional amount and comment. -/
structure Outcome where
  result : String
  amount : Rat
  comment : String
deriving DecidableEq

/-- Key of the entry store, mirroring `storage.DailyHabit`: a calendar day
(modelled as an integer day ordinal) together with a habit name. -/
structure DailyHabit where
  day : Int
  habit : String
deriving DecidableEq

/-- The entry snapshot, mirroring `storage.Entries` (a Go map keyed by
`DailyHabit`).  Modelled as an association list with earlier pairs shadowing
later ones, so `lookupEntry` has exact map-lookup semantics. -/
abbrev Entries : Type := List (DailyHabit × Outcome)

/-- Map lookup on the entry snapshot: the first binding of the key wins. -/
def lookupEntry (es : Entries) (k : DailyHabit) : Option Outcome :=
  (List.find? (fun p => decide (p.1 = k)) es).map Prod.snd

/-- Static habit definition, mirroring `storage.Habit`: name, target count,
interval length in days, first-record date. -/
structure Habit where
  name : String
  target : Int
  interval : Int
  firstRecord : Int
deriving DecidableEq

/-- The recorded result of `habit` on day `d`, if any. -/
def resultAt (es : Entries) (habit : String) (d : Int) : Option String :=
  (lookupEntry es ⟨d, habit⟩).map Outcome.result

/-- Whether an explicit success ("y") is recorded for `habit` on day `d`. -/
def successAt (es : Entries) (habit : String) (d : Int) : Bool :=
  decide (resultAt es habit d = some "y")

/-- Whether an explicit skip ("s") is recorded for `habit` on day `d`. -/
def skipAt (es : Entries) (habit : String) (d : Int) : Bool :=
  decide (resultAt es habit d = some "s")

/-- Number of success entries for `habit` in the `len` consecutive days
starting at `start` (inclusive). -/
def successesInWindow (es : Entries) (habit : String) (start : Int) (len : Nat) : Nat :=
  ((List.range len).filter (fun (i : Nat) => successAt es habit (start + (i : Int)))).length

/-- Start of the §4.1 evaluation window ending at `d`:
`max (d - interval + 1) firstRecord`. -/
def windowStart (d : Int) (h : Habit) : Int :=
  max (d - h.interval + 1) h.firstRecord

/-- Modelled from the spec: `graph.Satisfied` is not under src/ (only its
tests are).  Reconstructed from §4.1/§8 — sliding interval-length windows
with gap filling, a window only counting when it is anchored by data
available as of `d` — and validated below against every vector of
`TestSatisfied`, `TestSatisfiedGapScenarios` and `TestSatisfiedFutureDataBug`
(src/unnamed/part_000).  Daily habits (`interval == 1`) never satisfy
("should always fail" per the first `TestSatisfied` vector).  The scan tries
each anchor day `s` from `d` down to `windowStart d h`: the habit is
satisfied iff some anchor carries an explicit success and the
interval-length window starting at that anchor holds at least `target`
successes. -/
def Satisfied (d : Int) (h : Habit) (es : Entries) : Bool :=
  decide (1 < h.interval) &&
    (List.range (d + 1 - windowStart d h).toNat).any (fun i =>
      successAt es h.name (d - (i : Int)) &&
        decide (h.target ≤ (successesInWindow es h.name (d - (i : Int)) h.interval.toNat : Int)))

/-- Modelled from the spec: `graph.Skipified` is not under src/ (only its
tests are).  Per §4.2: true iff the habit is not daily (`interval > 1`) and
a skip outcome lies in the §4.1 backward window `[windowStart d h, d]`.
Validated below against every vector of `TestSkipified`. -/
def Skipified (d : Int) (h : Habit) (es : Entries) : Bool :=
  decide (1 < h.interval) &&
    (List.range (d + 1 - windowStart d h).toNat).any (fun i =>
      skipAt es h.name (d - (i : Int)))

/-- The success criterion claimed for `graph.Satisfied`: at least `target`
successes inside the single backward window `[windowStart d h, d]`.  This is
the literal §4.1 count, kept separate from `Satisfied` because the
repository's tests refute it as a characterisation (see `C1_counterexample`). -/
def windowCountSatisfied (d : Int) (h : Habit) (es : Entries) : Bool :=
  decide (h.target ≤
    (successesInWindow es h.name (windowStart d h) (d + 1 - windowStart d h).toNat : Int))

/-- Shorthand for one recorded entry with amount 0 and empty comment. -/
def ent (day : Int) (habit result : String) : DailyHabit × Outcome :=
  (⟨day, habit⟩, ⟨result, 0, ""⟩)

/-- Entries of the `TestSatisfied` vector "Target = 2, Interval = 7 (meets
target with gap filling)": successes on 2025-03-25 (= 84) and 2025-03-28
(= 87) for habit "Bike 10k". -/
def bikeEntries : Entries := [ent 84 "Bike 10k" "y", ent 87 "Bike 10k" "y"]

/-- The habit of that vector: target 2, interval 7, zero-valued first record. -/
def bikeHabit : Habit := ⟨"Bike 10k", 2, 7, -1000⟩

/-- Validation of the `Satisfied` model against every vector of
`TestSatisfied` (src/unnamed/part_000, lines 427-559), with 2025 dates as
day-of-year ordinals and the zero `civil.Date` as -1000. -/
theorem satisfied_matches_TestSatisfied :
    Satisfied 83 ⟨"Daily Walk", 1, 1, -1000⟩ [ent 83 "Daily Walk" "y"] = false ∧
    Satisfied 74 ⟨"Habit", 1, 7, -1000⟩ [ent 73 "Habit" "y", ent 80 "Habit" "y"] = true ∧
    Satisfied 82 ⟨"Habit", 1, 7, -1000⟩ [ent 75 "Habit" "y", ent 83 "Habit" "y"] = false ∧
    Satisfied 52 ⟨"Habit", 1, 7, -1000⟩
      [ent 40 "Habit" "y", ent 48 "Habit" "y", ent 56 "Habit" "y"] = true ∧
    Satisfied 85 bikeHabit bikeEntries = true ∧
    Satisfied 86 ⟨"Bike 10k", 2, 7, -1000⟩ [ent 82 "Bike 10k" "y", ent 89 "Bike 10k" "y"] = false ∧
    Satisfied 83 ⟨"Run 5k", 4, 7, -1000⟩ [ent 79 "Run 5k" "y", ent 81 "Run 5k" "y"] = false ∧
    Satisfied 83 ⟨"Swim", 7, 10, -1000⟩
      [ent 74 "Swim" "y", ent 75 "Swim" "y", ent 76 "Swim" "y", ent 77 "Swim" "y",
       ent 78 "Swim" "y", ent 79 "Swim" "y", ent 82 "Swim" "y"] = true ∧
    Satisfied 83 ⟨"Yoga", 10, 14, -1000⟩
      [ent 70 "Yoga" "y", ent 71 "Yoga" "y", ent 72 "Yoga" "y", ent 73 "Yoga" "y",
       ent 74 "Yoga" "y", ent 75 "Yoga" "y", ent 76 "Yoga" "y", ent 77 "Yoga" "y",
       ent 78 "Yoga" "y", ent 81 "Yoga" "y"] = true ∧
    Satisfied 83 ⟨"Strength Training", 3, 28, -1000⟩
      [ent 64 "Strength Training" "y", ent 74 "Strength Training" "y"] = false := by
  decide

/-- Validation of the `Satisfied` model against every vector of
`TestSatisfiedGapScenarios` (src/unnamed/part_000, lines 562-648):
2025-08-20 = 232, first record 232. -/
theorem satisfied_matches_TestSatisfiedGapScenarios :
    Satisfied 237 ⟨"Astro", 2, 7, 232⟩
      [ent 236 "Astro" "y", ent 237 "Astro" "y", ent 238 "Astro" "y", ent 239 "Astro" "y"]
      = true ∧
    Satisfied 237 ⟨"Astro", 2, 7, 232⟩
      [ent 233 "Astro" "y", ent 236 "Astro" "y", ent 237 "Astro" "n", ent 238 "Astro" "y",
       ent 239 "Astro" "y"] = true ∧
    Satisfied 237 ⟨"Astro", 2, 7, 232⟩
      [ent 236 "Astro" "y", ent 237 "Astro" "n", ent 238 "Astro" "y"] = true ∧
    Satisfied 235 ⟨"Astro", 2, 7, 232⟩
      [ent 233 "Astro" "y", ent 234 "Astro" "y", ent 235 "Astro" "n", ent 237 "Astro" "y",
       ent 238 "Astro" "y"] = true ∧
    Satisfied 237 ⟨"Exercise", 3, 7, 232⟩
      [ent 236 "Exercise" "y", ent 237 "Exercise" "n", ent 238 "Exercise" "y"] = false := by
  decide

/-- Validation of the `Satisfied` model against every vector of
`TestSatisfiedFutureDataBug` (src/unnamed/part_000, lines 651-749):
2025-08-25 = 237. -/
theorem satisfied_matches_TestSatisfiedFutureDataBug :
    Satisfied 238 ⟨"Write", 1, 3, 237⟩
      [ent 237 "Write" "n", ent 238 "Write" "n", ent 239 "Write" "n", ent 240 "Write" "y"]
      = false ∧
    Satisfied 239 ⟨"Write", 1, 3, 237⟩
      [ent 237 "Write" "n", ent 238 "Write" "n", ent 239 "Write" "n", ent 240 "Write" "y"]
      = false ∧
    Satisfied 240 ⟨"Write", 1, 3, 237⟩
      [ent 237 "Write" "n", ent 238 "Write" "n", ent 239 "Write" "n", ent 240 "Write" "y"]
      = true ∧
    Satisfied 239 ⟨"Write", 1, 3, 237⟩
      [ent 237 "Write" "y", ent 238 "Write" "n", ent 239 "Write" "n"] = true ∧
    Satisfied 236 ⟨"Exercise", 2, 7, 232⟩ [ent 237 "Exercise" "y", ent 238 "Exercise" "y"]
      = false := by
  decide

/-- Validation of the `Skipified` model against every vector of
`TestSkipified` (src/unnamed/part_000, lines 957-1002): 2025-03-15 = 74. -/
theorem skipified_matches_TestSkipified :
    Skipified 74 ⟨"Daily", 1, 1, -1000⟩ [ent 73 "Daily" "s"] = false ∧
    Skipified 74 ⟨"Weekly", 1, 7, -1000⟩ [ent 73 "Weekly" "s"] = true ∧
    Skipified 74 ⟨"Weekly", 1, 7, -1000⟩ [ent 73 "Weekly" "y"] = false := by
  decide

/-- C1: the repository's own test suite refutes the claimed backward-window
characterisation of `Satisfied`.  On the `TestSatisfied` gap-filling vector
(habit "Bike 10k", target 2, interval 7, successes on 2025-03-25 and
2025-03-28, evaluated on 2025-03-26 = 85) the test mandates `true`, which the
`Satisfied` model reproduces, while the inclusive backward window
`[max(d - interval + 1, firstRecord), d]` holds a single success, so the
claimed count criterion is false there. -/
theorem C1_counterexample :
    Satisfied 85 bikeHabit bikeEntries = true ∧
      windowCountSatisfied 85 bikeHabit bikeEntries = false := by
  decide

/-- C1 (amended): `Satisfied(d, habit, entries)` is true iff the interval
exceeds 1 and some anchor day `s` in the backward window
`[max(d - interval + 1, firstRecord), d]` carries an explicit success and
the interval-length window `[s, s + interval - 1]` starting there contains
at least `target` successes. -/
theorem C1_satisfied_characterization (d : Int) (h : Habit) (es : Entries) :
    Satisfied d h es = true ↔
      (1 < h.interval ∧ ∃ s : Int, windowStart d h ≤ s ∧ s ≤ d ∧
        successAt es h.name s = true ∧
        h.target ≤ (successesInWindow es h.name s h.interval.toNat : Int)) := by
  unfold Satisfied
  simp only [Bool.and_eq_true, decide_eq_true_eq]
  apply and_congr_right
  intro hI
  rw [List.any_eq_true]
  constructor
  · rintro ⟨i, hi, hp⟩
    rw [List.mem_range] at hi
    simp only [Bool.and_eq_true, decide_eq_true_eq] at hp
    exact ⟨d - (i : Int), by omega, by omega, hp.1, hp.2⟩
  · rintro ⟨s, hws, hsd, hsucc, hcount⟩
    refine ⟨(d - s).toNat, ?_, ?_⟩
    · rw [List.mem_range]; omega
    · have hds : d - ((d - s).toNat : Int) = s := by omega
      simp only [Bool.and_eq_true, decide_eq_true_eq, hds]
      exact ⟨hsucc, hcount⟩

/-- Any-scan over `range n` only depends on the predicate below `n`. -/
theorem range_any_congr {n : Nat} {p q : Nat → Bool} (hpq : ∀ i, i < n → p i = q i) :
    (List.range n).any p = (List.range n).any q := by
  induction n with
  | zero => rfl
  | succ m ih =>
    simp only [List.range_succ, List.any_append, List.any_cons, List.any_nil, Bool.or_false]
    rw [ih (fun i hi => hpq i (Nat.lt_succ_of_lt hi)), hpq m (Nat.lt_succ_self m)]

/-- Filtering over `range n` only depends on the predicate below `n`. -/
theorem range_filter_congr {n : Nat} {p q : Nat → Bool} (hpq : ∀ i, i < n → p i = q i) :
    (List.range n).filter p = (List.range n).filter q := by
  induction n with
  | zero => rfl
  | succ m ih =>
    simp only [List.range_succ, List.filter_append]
    rw [ih (fun i hi => hpq i (Nat.lt_succ_of_lt hi))]
    simp only [List.filter, hpq m (Nat.lt_succ_self m)]

/-- The window success count reads no entry dated after
`start + len - 1`. -/
theorem successesInWindow_congr (e1 e2 : Entries) (name : String) (start : Int) (len : Nat)
    (bound : Int)
    (hag : ∀ k : DailyHabit, k.day ≤ bound → lookupEntry e1 k = lookupEntry e2 k)
    (hb : start + (len : Int) - 1 ≤ bound) :
    successesInWindow e1 name start len = successesInWindow e2 name start len := by
  unfold successesInWindow
  rw [range_filter_congr]
  intro i hi
  unfold successAt resultAt
  rw [hag ⟨start + (i : Int), name⟩ (by simp only []; omega)]

/-- C2 (amended): `Satisfied` at date `d` is unchanged between any two entry
snapshots that agree on every entry dated on or before `d + interval - 1`
(the last day reachable by a window anchored on or before `d`); entries
beyond that horizon never influence the result. -/
theorem C2_no_future_beyond_window (d : Int) (h : Habit) (e1 e2 : Entries)
    (hag : ∀ k : DailyHabit, k.day ≤ d + h.interval - 1 →
      lookupEntry e1 k = lookupEntry e2 k) :
    Satisfied d h e1 = Satisfied d h e2 := by
  by_cases hI : 1 < h.interval
  · unfold Satisfied
    congr 1
    apply range_any_congr
    intro i hi
    have h1 : successAt e1 h.name (d - (i : Int)) = successAt e2 h.name (d - (i : Int)) := by
      unfold successAt resultAt
      rw [hag ⟨d - (i : Int), h.name⟩ (by simp only []; omega)]
    have h2 : successesInWindow e1 h.name (d - (i : Int)) h.interval.toNat =
        successesInWindow e2 h.name (d - (i : Int)) h.interval.toNat :=
      successesInWindow_congr e1 e2 h.name (d - (i : Int)) h.interval.toNat
        (d + h.interval - 1) hag (by omega)
    rw [h1, h2]
  · simp [Satisfied, hI]

/-- Entries visible on or before 2025-03-26 in the gap-filling scenario. -/
def pastEntriesC2 : Entries := [ent 84 "Bike 10k" "y"]

/-- The same snapshot plus one success dated 2025-03-28, strictly after the
evaluation date 2025-03-26 (= 85). -/
def futureEntriesC2 : Entries := [ent 84 "Bike 10k" "y", ent 87 "Bike 10k" "y"]

/-- C2: two snapshots agreeing on every entry dated on or before the
evaluation date 2025-03-26 (= 85) nevertheless give different `Satisfied`
results for the 2-in-7 habit, because the success dated 2025-03-28 (= 87)
completes an anchored window.  This is the very behaviour the repository's
gap-filling test vectors demand, so the claimed independence from entries
dated after `d` is false. -/
theorem C2_counterexample :
    (∀ k : DailyHabit, k.day ≤ 85 →
      lookupEntry pastEntriesC2 k = lookupEntry futureEntriesC2 k) ∧
      Satisfied 85 ⟨"Bike 10k", 2, 7, -1000⟩ pastEntriesC2 = false ∧
      Satisfied 85 ⟨"Bike 10k", 2, 7, -1000⟩ futureEntriesC2 = true := by
  refine ⟨?_, by decide, by decide⟩
  intro k hk
  rcases k with ⟨kd, kn⟩
  have hk' : kd ≤ 85 := hk
  by_cases h84 : (⟨84, "Bike 10k"⟩ : DailyHabit) = ⟨kd, kn⟩
  · simp [pastEntriesC2, futureEntriesC2, ent, lookupEntry, List.find?, h84]
  · have h87 : (⟨87, "Bike 10k"⟩ : DailyHabit) ≠ ⟨kd, kn⟩ := by
      intro hEq
      injection hEq with hEq1 hEq2
      omega
    simp [pastEntriesC2, futureEntriesC2, ent, lookupEntry, List.find?, h84, h87]

/-- The habit used by `C2_witness`. -/
def walkHabitC2 : Habit := ⟨"Walk", 2, 3, -1000⟩

/-- First snapshot of `C2_witness`: a success far beyond the horizon. -/
def farEntries1C2 : Entries := [ent 90 "Walk" "y"]

/-- Second snapshot of `C2_witness`: a different far-future success. -/
def farEntries2C2 : Entries := [ent 91 "Walk" "y"]

/-- Witness for `C2_no_future_beyond_window` at the evaluation date 10 with
interval 3: the two snapshots agree below the horizon 12 (their only entries
are dated 90 and 91), so the results coincide. -/
theorem C2_witness : Satisfied 10 walkHabitC2 farEntries1C2 = Satisfied 10 walkHabitC2 farEntries2C2 := by
  apply C2_no_future_beyond_window
  intro k hk
  rcases k with ⟨kd, kn⟩
  have hk' : kd ≤ 12 := hk
  have h90 : (⟨90, "Walk"⟩ : DailyHabit) ≠ ⟨kd, kn⟩ := by
    intro hEq; injection hEq with hEq1 hEq2; omega
  have h91 : (⟨91, "Walk"⟩ : DailyHabit) ≠ ⟨kd, kn⟩ := by
    intro hEq; injection hEq with hEq1 hEq2; omega
  simp [farEntries1C2, farEntries2C2, ent, lookupEntry, List.find?, h90, h91]

/-- C5: `Skipified(d, habit, entries)` is true iff the interval exceeds 1 and
some skip outcome lies in the backward evaluation window
`[max(d - interval + 1, firstRecord), d]`; in particular it is always false
for daily habits (`interval == 1`). -/
theorem C5_skipified_characterization (d : Int) (h : Habit) (es : Entries) :
    Skipified d h es = true ↔
      (1 < h.interval ∧ ∃ s : Int, windowStart d h ≤ s ∧ s ≤ d ∧
        skipAt es h.name s = true) := by
  unfold Skipified
  simp only [Bool.and_eq_true, decide_eq_true_eq]
  apply and_congr_right
  intro hI
  rw [List.any_eq_true]
  constructor
  · rintro ⟨i, hi, hp⟩
    rw [List.mem_range] at hi
    exact ⟨d - (i : Int), by omega, by omega, hp⟩
  · rintro ⟨s, hws, hsd, hsk⟩
    refine ⟨(d - s).toNat, by rw [List.mem_range]; omega, ?_⟩
    have hds : d - ((d - s).toNat : Int) = s := by omega
    rw [hds]
    exact hsk

/-- Eligibility of a habit for scoring on day `d` per §4.3: positive target,
tracking already begun, and no explicit skip recorded on `d`. -/
def eligibleHabit (d : Int) (es : Entries) (h : Habit) : Bool :=
  decide (0 < h.target) && decide (h.firstRecord ≤ d) && !(skipAt es h.name d)

/-- Modelled from the spec: `graph.Score` is not under src/ (only its tests
are).  Per §4.3, a single pass accumulating `satisfiedCount` and
`eligibleCount` over the habit list, with "Satisfied" taken as the §4.1
backward-window count criterion (`windowCountSatisfied`); the division is
guarded, an empty denominator scoring 100.  Validated below against every
vector of `TestScore` and `TestScoreComplex`. -/
def Score (d : Int) (habits : List Habit) (es : Entries) : Rat :=
  let counts := habits.foldl (fun (acc : Nat × Nat) h =>
    if eligibleHabit d es h then
      (if windowCountSatisfied d h es then acc.1 + 1 else acc.1, acc.2 + 1)
    else acc) (0, 0)
  if counts.2 = 0 then 100 else 100 * (counts.1 : Rat) / (counts.2 : Rat)

/-- The scoring pass counts exactly the eligible habits and the eligible
satisfied habits. -/
theorem scoreCounts_eq (d : Int) (es : Entries) (habits : List Habit) (a b : Nat) :
    habits.foldl (fun (acc : Nat × Nat) h =>
      if eligibleHabit d es h then
        (if windowCountSatisfied d h es then acc.1 + 1 else acc.1, acc.2 + 1)
      else acc) (a, b)
    = (a + habits.countP
          (fun h => eligibleHabit d es h && windowCountSatisfied d h es),
       b + habits.countP (eligibleHabit d es)) := by
  induction habits generalizing a b with
  | nil => simp
  | cons h t ih =>
    simp only [List.foldl_cons, List.countP_cons]
    by_cases he : eligibleHabit d es h = true
    · by_cases hs : windowCountSatisfied d h es = true
      · rw [if_pos he, if_pos hs, ih]
        have h1 : (eligibleHabit d es h && windowCountSatisfied d h es) = true := by
          rw [he, hs]
          rfl
        rw [h1, he]
        simp only [if_true, Prod.mk.injEq]
        constructor <;> omega
      · have hsf : windowCountSatisfied d h es = false := by
          revert hs
          cases windowCountSatisfied d h es <;> simp
        rw [if_pos he, if_neg hs, ih]
        have h1 : (eligibleHabit d es h && windowCountSatisfied d h es) = false := by
          rw [hsf]
          exact Bool.and_false _
        rw [h1, he]
        simp only [Bool.false_eq_true, if_false, if_true, Prod.mk.injEq]
        constructor <;> omega
    · have hef : eligibleHabit d es h = false := by
        revert he
        cases eligibleHabit d es h <;> simp
      rw [if_neg he, ih]
      have h1 : (eligibleHabit d es h && windowCountSatisfied d h es) = false := by
        rw [hef]
        exact Bool.false_and _
      rw [h1, hef]
      simp only [Bool.false_eq_true, if_false, Prod.mk.injEq]
      constructor <;> omega

/-- C3: `Score(d, habits, entries)` equals `100 * satisfiedCount /
eligibleCount`, where the eligible habits are those with positive target,
tracking begun by `d` and no explicit skip on `d`, the satisfied count is
the number of eligible habits meeting the §4.1 window criterion, and an
empty denominator scores exactly 100. -/
theorem C3_score_formula (d : Int) (habits : List Habit) (es : Entries) :
    Score d habits es =
      if habits.countP (eligibleHabit d es) = 0 then 100
      else 100 * (habits.countP
          (fun h => eligibleHabit d es h && windowCountSatisfied d h es) : Rat)
        / (habits.countP (eligibleHabit d es) : Rat) := by
  unfold Score
  rw [scoreCounts_eq d es habits 0 0]
  simp

/-- Validation of the `Score` model against `TestScore` (four daily habits,
outcomes y, y, n, y scoring 75) and every vector of `TestScoreComplex`
(2025-03-01 = 60, 2025-03-15 = 74; the test day of `TestScore` is encoded
as 200). -/
theorem score_matches_tests :
    Score 200
      [⟨"Test1", 1, 1, -1000⟩, ⟨"Test2", 1, 1, -1000⟩, ⟨"Test3", 1, 1, -1000⟩,
       ⟨"Test4", 1, 1, -1000⟩]
      [ent 200 "Test1" "y", ent 200 "Test2" "y", ent 200 "Test3" "n", ent 200 "Test4" "y"]
      = 75 ∧
    Score 74 [⟨"Test1", 1, 1, 60⟩, ⟨"Test2", 1, 1, 60⟩]
      [ent 74 "Test1" "y", ent 74 "Test2" "y"] = 100 ∧
    Score 74 [⟨"Test1", 1, 1, 60⟩, ⟨"Test2", 1, 1, 60⟩]
      [ent 74 "Test1" "y", ent 74 "Test2" "n"] = 50 ∧
    Score 74 [⟨"Test1", 1, 1, 60⟩, ⟨"Test2", 1, 1, 60⟩]
      [ent 74 "Test1" "y", ent 74 "Test2" "s"] = 100 ∧
    Score 74 [⟨"Test1", 1, 1, 60⟩, ⟨"Track", 0, 1, 60⟩]
      [ent 74 "Test1" "y", ent 74 "Track" "y"] = 100 := by
  refine ⟨?_, ?_, ?_, ?_, ?_⟩
  all_goals
    unfold Score
    rw [scoreCounts_eq]
    simp +decide [List.countP_cons, List.countP_nil]
    try norm_num

/-- Per-habit statistics, mirroring `ui.HabitStats`. -/
structure HabitStats where
  daysTracked : Int
  total : Rat
  streaks : Nat
  breaks : Nat
  skips : Nat
deriving DecidableEq

/-- One day of the statistics pass: an explicit entry is classified in the
switch order success / skip / window-satisfied / window-skipified / fail,
and its amount is added to the running total; a day without an explicit
entry contributes nothing. -/
def statsStep (h : Habit) (es : Entries) (d : Int) (acc : HabitStats) : HabitStats :=
  match lookupEntry es ⟨d, h.name⟩ with
  | none => acc
  | some o =>
    let acc1 :=
      if o.result = "y" then { acc with streaks := acc.streaks + 1 }
      else if o.result = "s" then { acc with skips := acc.skips + 1 }
      else if Satisfied d h es then { acc with streaks := acc.streaks + 1 }
      else if Skipified d h es then { acc with skips := acc.skips + 1 }
      else if o.result = "n" then { acc with breaks := acc.breaks + 1 }
      else acc
    { acc1 with total := acc1.total + o.amount }

/-- The statistics pass over consecutive days, fuelled by the day count. -/
def statsLoop (h : Habit) (es : Entries) : Int → Nat → HabitStats → HabitStats
  | _, 0, acc => acc
  | d, n + 1, acc => statsLoop h es (d + 1) n (statsStep h es d acc)

/-- Modelled from the spec: `ui.BuildStats` is not under src/ (only its
tests are).  Streak/break/skip/total statistics over the habit's history
`[firstRecord, today]` (§4.2), with `today` made an explicit parameter in
place of `time.Now()`.  `TestBuildStats` and `TestUIBuildStats` pin
`Breaks = 1` for a five-entry history followed by months of entryless days,
so only days bearing an explicit entry are classified; `DaysTracked` is
`today - firstRecord + 1` as checked by the tests. -/
def BuildStats (h : Habit) (es : Entries) (today : Int) : HabitStats :=
  statsLoop h es h.firstRecord (today + 1 - h.firstRecord).toNat
    ⟨today - h.firstRecord + 1, 0, 0, 0, 0⟩

/-- Number of days `d` in `[start, start + n)` with `p d`. -/
def countRange (p : Int → Bool) : Int → Nat → Nat
  | _, 0 => 0
  | start, n + 1 => (if p start then 1 else 0) + countRange p (start + 1) n

/-- Sum of `f d` over the days `d` in `[start, start + n)`. -/
def sumRange (f : Int → Rat) : Int → Nat → Rat
  | _, 0 => 0
  | start, n + 1 => f start + sumRange f (start + 1) n

/-- Day `d` is counted as a streak by the statistics pass: an explicit
success, or an explicit non-success non-skip entry covered by window
satisfaction. -/
def explicitStreakAt (d : Int) (h : Habit) (es : Entries) : Bool :=
  match resultAt es h.name d with
  | none => false
  | some r =>
    decide (r = "y") || (!(decide (r = "y")) && !(decide (r = "s")) && Satisfied d h es)

/-- Day `d` is counted as a skip by the statistics pass. -/
def explicitSkipAt (d : Int) (h : Habit) (es : Entries) : Bool :=
  match resultAt es h.name d with
  | none => false
  | some r =>
    decide (r = "s") || (!(decide (r = "y")) && !(decide (r = "s")) &&
      !(Satisfied d h es) && Skipified d h es)

/-- Day `d` is counted as a break by the statistics pass: an explicit "n"
entry that is neither window-satisfied nor window-skipified. -/
def explicitBreakAt (d : Int) (h : Habit) (es : Entries) : Bool :=
  match resultAt es h.name d with
  | none => false
  | some r =>
    !(decide (r = "y")) && !(decide (r = "s")) && !(Satisfied d h es) &&
      !(Skipified d h es) && decide (r = "n")

/-- The explicitly recorded amount for `habit` on day `d`, 0 when absent. -/
def amountAt (es : Entries) (habit : String) (d : Int) : Rat :=
  match lookupEntry es ⟨d, habit⟩ with
  | none => 0
  | some o => o.amount

/-- One statistics step leaves `daysTracked` unchanged. -/
theorem statsStep_daysTracked (h : Habit) (es : Entries) (d : Int) (acc : HabitStats) :
    (statsStep h es d acc).daysTracked = acc.daysTracked := by
  unfold statsStep
  cases hl : lookupEntry es ⟨d, h.name⟩ with
  | none => rfl
  | some o =>
    by_cases hy : o.result = "y"
    · simp [hy]
    · by_cases hs2 : o.result = "s"
      · simp [hy, hs2]
      · by_cases hsat : Satisfied d h es
        · simp [hy, hs2, hsat]
        · by_cases hskip : Skipified d h es
          · simp [hy, hs2, hsat, hskip]
          · by_cases hn : o.result = "n"
            · simp [hy, hs2, hsat, hskip, hn]
            · simp [hy, hs2, hsat, hskip, hn]

/-- One statistics step adds 1 to `breaks` exactly on explicit break days. -/
theorem statsStep_breaks (h : Habit) (es : Entries) (d : Int) (acc : HabitStats) :
    (statsStep h es d acc).breaks =
      acc.breaks + (if explicitBreakAt d h es then 1 else 0) := by
  unfold statsStep explicitBreakAt resultAt
  cases hl : lookupEntry es ⟨d, h.name⟩ with
  | none => simp
  | some o =>
    by_cases hy : o.result = "y"
    · simp [hy]
    · by_cases hs2 : o.result = "s"
      · simp [hy, hs2]
      · by_cases hsat : Satisfied d h es
        · simp [hy, hs2, hsat]
        · by_cases hskip : Skipified d h es
          · simp [hy, hs2, hsat, hskip]
          · by_cases hn : o.result = "n"
            · simp [hy, hs2, hsat, hskip, hn]
            · simp [hy, hs2, hsat, hskip, hn]

/-- One statistics step adds 1 to `streaks` exactly on streak days. -/
theorem statsStep_streaks (h : Habit) (es : Entries) (d : Int) (acc : HabitStats) :
    (statsStep h es d acc).streaks =
      acc.streaks + (if explicitStreakAt d h es then 1 else 0) := by
  unfold statsStep explicitStreakAt resultAt
  cases hl : lookupEntry es ⟨d, h.name⟩ with
  | none => simp
  | some o =>
    by_cases hy : o.result = "y"
    · simp [hy]
    · by_cases hs2 : o.result = "s"
      · simp [hy, hs2]
      · by_cases hsat : Satisfied d h es
        · simp [hy, hs2, hsat]
        · by_cases hskip : Skipified d h es
          · simp [hy, hs2, hsat, hskip]
          · by_cases hn : o.result = "n"
            · simp [hy, hs2, hsat, hskip, hn]
            · simp [hy, hs2, hsat, hskip, hn]

/-- One statistics step adds 1 to `skips` exactly on skip days. -/
theorem statsStep_skips (h : Habit) (es : Entries) (d : Int) (acc : HabitStats) :
    (statsStep h es d acc).skips =
      acc.skips + (if explicitSkipAt d h es then 1 else 0) := by
  unfold statsStep explicitSkipAt resultAt
  cases hl : lookupEntry es ⟨d, h.name⟩ with
  | none => simp
  | some o =>
    by_cases hy : o.result = "y"
    · simp [hy]
    · by_cases hs2 : o.result = "s"
      · simp [hy, hs2]
      · by_cases hsat : Satisfied d h es
        · simp [hy, hs2, hsat]
        · by_cases hskip : Skipified d h es
          · simp [hy, hs2, hsat, hskip]
          · by_cases hn : o.result = "n"
            · simp [hy, hs2, hsat, hskip, hn]
            · simp [hy, hs2, hsat, hskip, hn]

/-- One statistics step adds the day's recorded amount to `total`. -/
theorem statsStep_total (h : Habit) (es : Entries) (d : Int) (acc : HabitStats) :
    (statsStep h es d acc).total = acc.total + amountAt es h.name d := by
  unfold statsStep amountAt
  cases hl : lookupEntry es ⟨d, h.name⟩ with
  | none => simp
  | some o =>
    by_cases hy : o.result = "y"
    · simp [hy]
    · by_cases hs2 : o.result = "s"
      · simp [hy, hs2]
      · by_cases hsat : Satisfied d h es
        · simp [hy, hs2, hsat]
        · by_cases hskip : Skipified d h es
          · simp [hy, hs2, hsat, hskip]
          · by_cases hn : o.result = "n"
            · simp [hy, hs2, hsat, hskip, hn]
            · simp [hy, hs2, hsat, hskip, hn]

/-- The statistics pass accumulates `breaks` as the count of explicit break
days in the scanned range. -/
theorem statsLoop_breaks (h : Habit) (es : Entries) (d : Int) (n : Nat) (acc : HabitStats) :
    (statsLoop h es d n acc).breaks =
      acc.breaks + countRange (fun x => explicitBreakAt x h es) d n := by
  induction n generalizing d acc with
  | zero => simp [statsLoop, countRange]
  | succ m ih =>
    simp only [statsLoop, countRange]
    rw [ih, statsStep_breaks]
    omega

/-- The statistics pass accumulates `streaks` as the count of streak days. -/
theorem statsLoop_streaks (h : Habit) (es : Entries) (d : Int) (n : Nat) (acc : HabitStats) :
    (statsLoop h es d n acc).streaks =
      acc.streaks + countRange (fun x => explicitStreakAt x h es) d n := by
  induction n generalizing d acc with
  | zero => simp [statsLoop, countRange]
  | succ m ih =>
    simp only [statsLoop, countRange]
    rw [ih, statsStep_streaks]
    omega

/-- The statistics pass accumulates `skips` as the count of skip days. -/
theorem statsLoop_skips (h : Habit) (es : Entries) (d : Int) (n : Nat) (acc : HabitStats) :
    (statsLoop h es d n acc).skips =
      acc.skips + countRange (fun x => explicitSkipAt x h es) d n := by
  induction n generalizing d acc with
  | zero => simp [statsLoop, countRange]
  | succ m ih =>
    simp only [statsLoop, countRange]
    rw [ih, statsStep_skips]
    omega

/-- The statistics pass accumulates `total` as the sum of recorded amounts. -/
theorem statsLoop_total (h : Habit) (es : Entries) (d : Int) (n : Nat) (acc : HabitStats) :
    (statsLoop h es d n acc).total =
      acc.total + sumRange (fun x => amountAt es h.name x) d n := by
  induction n generalizing d acc with
  | zero => simp [statsLoop, sumRange]
  | succ m ih =>
    simp only [statsLoop, sumRange]
    rw [ih, statsStep_total]
    ring

/-- The statistics pass never changes `daysTracked`. -/
theorem statsLoop_daysTracked (h : Habit) (es : Entries) (d : Int) (n : Nat) (acc : HabitStats) :
    (statsLoop h es d n acc).daysTracked = acc.daysTracked := by
  induction n generalizing d acc with
  | zero => simp [statsLoop]
  | succ m ih =>
    simp only [statsLoop]
    rw [ih, statsStep_daysTracked]

/-- Per-day render state of the Classifier (§4.2). -/
inductive DayState where
  | success
  | skipDay
  | satisfiedDay
  | notYetTracked
  | dayBreak
deriving DecidableEq

/-- Modelled from the spec: the §4.2 per-day classification in its stated
priority order — explicit success, explicit skip, window-skipified,
window-satisfied, before tracking, break. -/
def dayState (d : Int) (h : Habit) (es : Entries) : DayState :=
  if successAt es h.name d then .success
  else if skipAt es h.name d then .skipDay
  else if Skipified d h es then .skipDay
  else if Satisfied d h es then .satisfiedDay
  else if d < h.firstRecord then .notYetTracked
  else .dayBreak

/-- The break count claimed for the statistics builder: days of
`[firstRecord, today]` whose §4.2 classification is Break, which includes
entryless days that are neither satisfied nor skip-covered. -/
def breaksInRange (h : Habit) (es : Entries) (today : Int) : Nat :=
  countRange (fun d => decide (dayState d h es = .dayBreak)) h.firstRecord
    (today + 1 - h.firstRecord).toNat

/-- The habit of `TestBuildStats` (and `TestUIBuildStats`): daily, first
record 2025-03-10 (= 69). -/
def statsHabit : Habit := ⟨"Test", 1, 1, 69⟩

/-- The entries of `TestBuildStats`: y/5, y/3, n/0, s/0, y/2 on
2025-03-10 .. 2025-03-14 (= 69 .. 73). -/
def statsEntries : Entries :=
  [(⟨69, "Test"⟩, ⟨"y", 5, ""⟩), (⟨70, "Test"⟩, ⟨"y", 3, ""⟩), (⟨71, "Test"⟩, ⟨"n", 0, ""⟩),
   (⟨72, "Test"⟩, ⟨"s", 0, ""⟩), (⟨73, "Test"⟩, ⟨"y", 2, ""⟩)]

/-- C4: on the `TestBuildStats` history evaluated with `today` = 2025-03-20
(= 79), the statistics builder reports 1 break — the value the repository's
test demands for every `today` past the last entry — while the claimed
classification of all days of `[firstRecord, today]` yields 7 breaks
(the explicit "n" day plus six entryless days that are neither satisfied,
skip-covered, nor before first record).  The claim's inclusion of implicit
failures is therefore false of the code. -/
theorem C4_counterexample :
    (BuildStats statsHabit statsEntries 79).breaks = 1 ∧
      breaksInRange statsHabit statsEntries 79 = 7 := by
  constructor
  · unfold BuildStats
    rw [statsLoop_breaks]
    decide
  · decide

/-- C4 (amended): `Breaks` counts exactly the days of
`[firstRecord, today]` bearing an explicit recorded outcome "n" that is
neither window-satisfied nor window-skipified; days without an explicit
entry contribute nothing. -/
theorem C4_breaks_characterization (h : Habit) (es : Entries) (today : Int) :
    (BuildStats h es today).breaks =
      countRange (fun d => explicitBreakAt d h es) h.firstRecord
        (today + 1 - h.firstRecord).toNat := by
  unfold BuildStats
  rw [statsLoop_breaks]
  simp

/-- Validation of the `BuildStats` model against the integer fields pinned
by `TestBuildStats` and `TestUIBuildStats`: 3 streaks, 1 break, 1 skip, and
`daysTracked = today - firstRecord + 1`. -/
theorem buildStats_matches_TestBuildStats :
    (BuildStats statsHabit statsEntries 79).streaks = 3 ∧
      (BuildStats statsHabit statsEntries 79).skips = 1 ∧
      (BuildStats statsHabit statsEntries 79).daysTracked = 11 := by
  refine ⟨?_, ?_, ?_⟩
  · unfold BuildStats
    rw [statsLoop_streaks]
    decide
  · unfold BuildStats
    rw [statsLoop_skips]
    decide
  · unfold BuildStats
    rw [statsLoop_daysTracked]
    decide

/-- Validation of the `BuildStats` running total against the amount sum 10
pinned by `TestBuildStats`. -/
theorem buildStats_total_matches_TestBuildStats :
    (BuildStats statsHabit statsEntries 79).total = 10 := by
  unfold BuildStats
  rw [statsLoop_total]
  have h69 : amountAt statsEntries "Test" 69 = 5 := rfl
  have h70 : amountAt statsEntries "Test" 70 = 3 := rfl
  have h71 : amountAt statsEntries "Test" 71 = 0 := rfl
  have h72 : amountAt statsEntries "Test" 72 = 0 := rfl
  have h73 : amountAt statsEntries "Test" 73 = 2 := rfl
  have h74 : amountAt statsEntries "Test" 74 = 0 := rfl
  have h75 : amountAt statsEntries "Test" 75 = 0 := rfl
  have h76 : amountAt statsEntries "Test" 76 = 0 := rfl
  have h77 : amountAt statsEntries "Test" 77 = 0 := rfl
  have h78 : amountAt statsEntries "Test" 78 = 0 := rfl
  have h79 : amountAt statsEntries "Test" 79 = 0 := rfl
  simp only [statsHabit]
  norm_num [sumRange, h69, h70, h71, h72, h73, h74, h75, h76, h77, h78, h79]

/-- The renderer's day loop: starting at `d`, one day per iteration. -/
def graphDaysLoop : Int → Nat → List Int
  | _, 0 => []
  | d, n + 1 => d :: graphDaysLoop (d + 1) n

/-- The calendar days scanned by the renderer: `lo, lo+1, ..., hi`
(empty when `hi < lo`), mirroring `for d := from; !d.After(to); d = d.AddDays(1)`. -/
def graphDays (lo hi : Int) : List Int :=
  graphDaysLoop lo (hi + 1 - lo).toNat

/-- Modelled from the spec: the per-day glyph.  `colorless` selects the
plain symbol set instead of the colored one — a pure presentation switch
over the same computed `DayState`. -/
def glyph (colorless : Bool) : DayState → Char
  | .success => if colorless then '+' else 'Y'
  | .skipDay => if colorless then '-' else 'S'
  | .satisfiedDay => if colorless then '*' else 'T'
  | .notYetTracked => if colorless then ' ' else '_'
  | .dayBreak => if colorless then '!' else 'B'

/-- Modelled from the spec: `graph.BuildGraph` is not under src/ (only its
tests are).  One glyph per calendar day of the inclusive range
`[today - countBack, today]`, chosen from the §4.2 classification, with
`today` made an explicit parameter in place of `time.Now()` (§4.4). -/
def BuildGraph (h : Habit) (es : Entries) (today : Int) (countBack : Nat)
    (colorless : Bool) : List Char :=
  (graphDays (today - (countBack : Int)) today).map (fun d => glyph colorless (dayState d h es))

/-- Modelled from the spec: `graph.BuildGraphsParallel` is not under src/
(only its tests are).  The fan-out/fan-in denotation of §4.4/§5: each
habit's graph is computed independently and the results are merged into one
mapping keyed by habit name; the merge is a plain key-disjoint union, so the
model is the deterministic sequential map. -/
def BuildGraphsParallel (habits : List Habit) (es : Entries) (today : Int)
    (countBack : Nat) (colorless : Bool) : List (String × List Char) :=
  habits.map (fun h => (h.name, BuildGraph h es today countBack colorless))

/-- The day loop produces exactly its fuel's worth of consecutive days. -/
theorem graphDaysLoop_eq_range_map (n : Nat) (d : Int) :
    graphDaysLoop d n = (List.range n).map (fun (i : Nat) => d + (i : Int)) := by
  induction n generalizing d with
  | zero => rfl
  | succ m ih =>
    show d :: graphDaysLoop (d + 1) m = _
    rw [ih, List.range_succ_eq_map, List.map_cons, List.map_map]
    congr 1
    · simp
    · apply List.map_congr_left
      intro a _
      simp only [Function.comp_apply]
      omega

/-- C6: the rendered graph has exactly `countBack + 1` symbols, one per
calendar day of the inclusive range `[today - countBack, today]` in
chronological order, regardless of the habit's age. -/
theorem C6_graph_length (h : Habit) (es : Entries) (today : Int) (countBack : Nat)
    (colorless : Bool) :
    (BuildGraph h es today countBack colorless).length = countBack + 1 ∧
    BuildGraph h es today countBack colorless =
      (List.range (countBack + 1)).map
        (fun (i : Nat) => glyph colorless (dayState (today - (countBack : Int) + (i : Int)) h es)) := by
  have hd : graphDays (today - (countBack : Int)) today =
      (List.range (countBack + 1)).map
        (fun (i : Nat) => today - (countBack : Int) + (i : Int)) := by
    unfold graphDays
    have hn : (today + 1 - (today - (countBack : Int))).toNat = countBack + 1 := by omega
    rw [graphDaysLoop_eq_range_map, hn]
  constructor
  · unfold BuildGraph
    rw [hd]
    simp
  · unfold BuildGraph
    rw [hd, List.map_map]
    apply List.map_congr_left
    intro a _
    simp only [Function.comp_apply]

/-- For pairwise distinct habit names, looking a habit's name up in the
merged graph mapping returns exactly that habit's independently computed
graph. -/
theorem findGraph_of_nodup (es : Entries) (today : Int) (countBack : Nat) (colorless : Bool) :
    ∀ habits : List Habit, (habits.map Habit.name).Nodup →
      ∀ h ∈ habits,
        (BuildGraphsParallel habits es today countBack colorless).find?
            (fun p => decide (p.1 = h.name))
          = some (h.name, BuildGraph h es today countBack colorless) := by
  intro habits
  induction habits with
  | nil =>
    intro _ h hmem
    exact absurd hmem (List.not_mem_nil h)
  | cons a t ih =>
    intro hnd h hmem
    rw [List.map_cons, List.nodup_cons] at hnd
    rcases List.mem_cons.mp hmem with heq | hmt
    · subst heq
      simp [BuildGraphsParallel, List.find?]
    · have hne : ¬(a.name = h.name) := by
        intro hEq
        exact hnd.1 (hEq ▸ List.mem_map_of_mem Habit.name hmt)
      have hrec := ih hnd.2 h hmt
      simp only [BuildGraphsParallel, List.map_cons] at hrec ⊢
      simp [List.find?, hne]
      simpa using hrec

/-- C7: with pairwise distinct habit names, the merged mapping's key
sequence is exactly the habit names, and each name maps to the very graph
`BuildGraph` computes for that habit alone — the deterministic fan-in of
independent per-habit computations. -/
theorem C7_parallel_refinement (habits : List Habit) (es : Entries) (today : Int)
    (countBack : Nat) (colorless : Bool)
    (hnd : (habits.map Habit.name).Nodup) :
    (BuildGraphsParallel habits es today countBack colorless).map Prod.fst
        = habits.map Habit.name ∧
    ∀ h ∈ habits,
      (BuildGraphsParallel habits es today countBack colorless).find?
          (fun p => decide (p.1 = h.name))
        = some (h.name, BuildGraph h es today countBack colorless) := by
  constructor
  · unfold BuildGraphsParallel
    rw [List.map_map]
    rfl
  · exact findGraph_of_nodup es today countBack colorless habits hnd

/-- First habit of the `C7_witness` instance. -/
def graphHabitA : Habit := ⟨"A", 1, 1, 0⟩

/-- Second habit of the `C7_witness` instance. -/
def graphHabitB : Habit := ⟨"B", 1, 1, 0⟩

/-- Witness for `C7_parallel_refinement` on two concretely named habits. -/
theorem C7_witness :
    (BuildGraphsParallel [graphHabitA, graphHabitB] [] 5 1 true).map Prod.fst
        = [graphHabitA, graphHabitB].map Habit.name ∧
    ∀ h ∈ [graphHabitA, graphHabitB],
      (BuildGraphsParallel [graphHabitA, graphHabitB] [] 5 1 true).find?
          (fun p => decide (p.1 = h.name))
        = some (h.name, BuildGraph h [] 5 1 true) :=
  C7_parallel_refinement [graphHabitA, graphHabitB] [] 5 1 true (by decide)

/-- Whether any entry exists for `name` on day `d`. -/
def hasEntry (es : Entries) (d : Int) (name : String) : Bool :=
  (lookupEntry es ⟨d, name⟩).isSome

/-- One day of `Entries.FirstRecords` (log.go:240-246): every habit with an
entry on `dt` gets its `FirstRecord` set to `dt`. -/
def setFirstRecords (es : Entries) (dt : Int) (habits : List Habit) : List Habit :=
  habits.map (fun h => if hasEntry es dt h.name then { h with firstRecord := dt } else h)

/-- The descending day loop of `Entries.FirstRecords`, fuelled by the
number of days scanned. -/
def firstRecordsLoop (es : Entries) : Int → Nat → List Habit → List Habit
  | _, 0, habits => habits
  | dt, n + 1, habits => firstRecordsLoop es (dt - 1) n (setFirstRecords es dt habits)

/-- Model of `Entries.FirstRecords(from, to, habits)` (log.go:239): scan the days
from `hi` down to `lo` inclusive, overwriting each habit's `FirstRecord`
with every entry-bearing day encountered, so the last write is the earliest
such day. -/
def FirstRecords (es : Entries) (lo hi : Int) (habits : List Habit) : List Habit :=
  firstRecordsLoop es hi (hi + 1 - lo).toNat habits

/-- Upward scan returning the first entry-bearing day, fuelled by the
number of days scanned. -/
def earliestEntryLoop (es : Entries) (name : String) : Int → Nat → Option Int
  | _, 0 => none
  | d, n + 1 => if hasEntry es d name then some d else earliestEntryLoop es name (d + 1) n

/-- The earliest day of `[lo, hi]` bearing an entry for `name`, if any. -/
def earliestEntryIn (es : Entries) (lo hi : Int) (name : String) : Option Int :=
  earliestEntryLoop es name lo (hi + 1 - lo).toNat

/-- The upward scan finds exactly the least entry-bearing day of its
range. -/
theorem earliestEntryLoop_some_iff (es : Entries) (name : String) :
    ∀ (n : Nat) (d0 dt : Int), earliestEntryLoop es name d0 n = some dt ↔
      (d0 ≤ dt ∧ dt < d0 + (n : Int) ∧ hasEntry es dt name = true ∧
        ∀ d2, d0 ≤ d2 → d2 < dt → hasEntry es d2 name = false) := by
  intro n
  induction n with
  | zero =>
    intro d0 dt
    simp only [earliestEntryLoop]
    constructor
    · intro hcon
      exact absurd hcon (by simp)
    · rintro ⟨h1, h2, _⟩
      exfalso
      omega
  | succ m ih =>
    intro d0 dt
    simp only [earliestEntryLoop]
    by_cases hd : hasEntry es d0 name = true
    · rw [if_pos hd]
      constructor
      · intro hsome
        have heq : d0 = dt := by
          injection hsome
        subst heq
        exact ⟨le_refl d0, by omega, hd, fun d2 h1 h2 => absurd h2 (by omega)⟩
      · rintro ⟨h1, h2, h3, h4⟩
        have heq : d0 = dt := by
          by_contra hne
          have hlt : d0 < dt := by omega
          have hf := h4 d0 (le_refl d0) hlt
          rw [hf] at hd
          exact absurd hd (by simp)
        rw [heq]
    · have hdf : hasEntry es d0 name = false := by
        revert hd
        cases hasEntry es d0 name <;> simp
      rw [if_neg hd, ih (d0 + 1) dt]
      constructor
      · rintro ⟨h1, h2, h3, h4⟩
        refine ⟨by omega, by omega, h3, ?_⟩
        intro d2 hd2 hd2lt
        by_cases he : d2 = d0
        · rw [he]
          exact hdf
        · exact h4 d2 (by omega) hd2lt
      · rintro ⟨h1, h2, h3, h4⟩
        refine ⟨?_, by omega, h3, fun d2 hd2 hlt => h4 d2 (by omega) hlt⟩
        by_contra hc
        have heq : dt = d0 := by omega
        rw [heq, hdf] at h3
        exact absurd h3 (by simp)

/-- Extending the upward scan by one more day at its top end. -/
theorem earliestEntryLoop_snoc (es : Entries) (name : String) :
    ∀ (m : Nat) (s : Int), earliestEntryLoop es name s (m + 1) =
      match earliestEntryLoop es name s m with
      | some e => some e
      | none => if hasEntry es (s + (m : Int)) name then some (s + (m : Int)) else none := by
  intro m
  induction m with
  | zero =>
    intro s
    simp [earliestEntryLoop]
  | succ k ih =>
    intro s
    show (if hasEntry es s name then some s
      else earliestEntryLoop es name (s + 1) (k + 1)) = _
    by_cases hs : hasEntry es s name = true
    · rw [if_pos hs]
      have : earliestEntryLoop es name s (k + 1) = some s := by
        show (if hasEntry es s name then some s else _) = some s
        rw [if_pos hs]
      rw [this]
    · rw [if_neg hs, ih (s + 1)]
      have hout : earliestEntryLoop es name s (k + 1) =
          earliestEntryLoop es name (s + 1) k := by
        show (if hasEntry es s name then some s else _) = _
        rw [if_neg hs]
      rw [hout]
      have harg : s + 1 + (k : Int) = s + ((k + 1 : Nat) : Int) := by
        push_cast
        ring
      rw [harg]

/-- The descending `FirstRecords` loop rewrites each habit's first record to
the least entry-bearing day of the scanned range (the last write of the
downward scan), leaving it untouched when the range holds no entry. -/
theorem firstRecordsLoop_eq (es : Entries) :
    ∀ (n : Nat) (dt : Int) (habits : List Habit),
      firstRecordsLoop es dt n habits = habits.map (fun h =>
        match earliestEntryLoop es h.name (dt + 1 - (n : Int)) n with
        | some e => { h with firstRecord := e }
        | none => h) := by
  intro n
  induction n with
  | zero =>
    intro dt habits
    simp [firstRecordsLoop, earliestEntryLoop]
  | succ m ih =>
    intro dt habits
    show firstRecordsLoop es (dt - 1) m (setFirstRecords es dt habits) = _
    rw [ih (dt - 1) (setFirstRecords es dt habits)]
    unfold setFirstRecords
    rw [List.map_map]
    apply List.map_congr_left
    intro h _
    simp only [Function.comp_apply]
    have hname : (if hasEntry es dt h.name then { h with firstRecord := dt }
        else h).name = h.name := by
      by_cases hdt : hasEntry es dt h.name = true <;> simp [hdt]
    rw [hname]
    have harg1 : dt - 1 + 1 - (m : Int) = dt - (m : Int) := by ring
    have harg2 : dt + 1 - ((m + 1 : Nat) : Int) = dt - (m : Int) := by push_cast; ring
    rw [harg1, harg2, earliestEntryLoop_snoc es h.name m (dt - (m : Int))]
    have harg3 : dt - (m : Int) + (m : Int) = dt := by ring
    rw [harg3]
    cases hE : earliestEntryLoop es h.name (dt - (m : Int)) m with
    | some e => by_cases hdt : hasEntry es dt h.name = true <;> simp [hdt]
    | none => by_cases hdt : hasEntry es dt h.name = true <;> simp [hdt]

/-- C8: after `FirstRecords(from, to, habits)`, every habit whose name has
an entry inside `[from, to]` carries the earliest such entry day as its
first record, and a habit without entries in the range keeps its prior
value; the day written always bears an actual entry and every earlier day
of the range does not. -/
theorem C8_first_records (es : Entries) (lo hi : Int) (habits : List Habit) :
    FirstRecords es lo hi habits = habits.map (fun h =>
      match earliestEntryIn es lo hi h.name with
      | some dt => { h with firstRecord := dt }
      | none => h) ∧
    ∀ name dt, earliestEntryIn es lo hi name = some dt ↔
      (lo ≤ dt ∧ dt ≤ hi ∧ hasEntry es dt name = true ∧
        ∀ d2, lo ≤ d2 → d2 < dt → hasEntry es d2 name = false) := by
  constructor
  · unfold FirstRecords earliestEntryIn
    rw [firstRecordsLoop_eq]
    by_cases hrange : lo ≤ hi + 1
    · have hstart : hi + 1 - (((hi + 1 - lo).toNat : Nat) : Int) = lo := by omega
      rw [hstart]
    · have h0 : (hi + 1 - lo).toNat = 0 := by omega
      rw [h0]
      rfl
  · intro name dt
    unfold earliestEntryIn
    rw [earliestEntryLoop_some_iff]
    constructor
    · rintro ⟨h1, h2, h3, h4⟩
      exact ⟨h1, by omega, h3, h4⟩
    · rintro ⟨h1, h2, h3, h4⟩
      exact ⟨h1, by omega, h3, h4⟩

/-- Calendar date as year-month-day, used by the storage layer model where
the textual ISO form matters (`civil.Date`); the zero value ⟨0, 0, 0⟩
mirrors Go's zero `civil.Date{}`. -/
structure CalDate where
  year : Nat
  month : Nat
  day : Nat
deriving DecidableEq

/-- Entry key of the storage layer: calendar date and habit name. -/
structure LogDailyHabit where
  day : CalDate
  habit : List Char
deriving DecidableEq

/-- Recorded outcome as parsed by the storage layer: status code, amount
(`float64` modelled as an exact rational) and comment. -/
structure LogOutcome where
  result : List Char
  amount : Rat
  comment : List Char
deriving DecidableEq

/-- Entry snapshot built by the log loader; earlier pairs shadow later ones,
so `insertEntry` has Go map-assignment semantics. -/
abbrev LogEntries := List (LogDailyHabit × LogOutcome)

/-- Map assignment `entries[k] = v`. -/
def insertEntry (es : LogEntries) (k : LogDailyHabit) (v : LogOutcome) : LogEntries :=
  (k, v) :: es

/-- The log header, mirroring `storage.Header` (`map[string]int`): an
optional column position for each of the five known column names. -/
structure Header where
  date : Option Nat
  habit : Option Nat
  status : Option Nat
  comment : Option Nat
  amount : Option Nat
deriving DecidableEq

/-- Model of `len(header)`: the number of column names present. -/
def Header.size (h : Header) : Nat :=
  (if h.date.isSome then 1 else 0) + (if h.habit.isSome then 1 else 0) +
    (if h.status.isSome then 1 else 0) + (if h.comment.isSome then 1 else 0) +
    (if h.amount.isSome then 1 else 0)

/-- Model of `storage.DefaultHeader`: Date, Habit, Status, Comment, Amount at
positions 0..4. -/
def DefaultHeader : Header := ⟨some 0, some 1, some 2, some 3, some 4⟩

/-- ASCII whitespace, modelling `strings.TrimSpace`'s cutset for the
characters that occur in log fields. -/
def isSpaceChar (c : Char) : Bool :=
  c == ' ' || c == '\t' || c == '\n' || c == '\r'

/-- Model of `strings.TrimSpace`. -/
def trimChars (cs : List Char) : List Char :=
  ((cs.dropWhile isSpaceChar).reverse.dropWhile isSpaceChar).reverse

/-- The three-character field separator " : " of the log format. -/
def fieldSep : List Char := [' ', ':', ' ']

/-- Model of `strings.Split(line, " : ")`: cut at each leftmost non-overlapping
occurrence of the separator. -/
def splitAux : List Char → List Char → List (List Char)
  | ' ' :: ':' :: ' ' :: rest, acc => acc.reverse :: splitAux rest []
  | c :: rest, acc => splitAux rest (c :: acc)
  | [], acc => [acc.reverse]

/-- Split a log line into its fields. -/
def splitFields (line : List Char) : List (List Char) :=
  splitAux line []

/-- Model of `strings.Join(fields, " : ")`. -/
def joinFields (fs : List (List Char)) : List Char :=
  List.intercalate fieldSep fs

/-- Value of an ASCII digit. -/
def digitToNat (c : Char) : Nat := c.toNat - 48

/-- The ASCII digit for `n < 10`. -/
def digitChar (n : Nat) : Char := Char.ofNat (48 + n)

/-- Two-digit zero-padded decimal (`%02d` for values below 100). -/
def pad2 (n : Nat) : List Char := [digitChar (n / 10 % 10), digitChar (n % 10)]

/-- Four-digit zero-padded decimal (`%04d` for values below 10000). -/
def pad4 (n : Nat) : List Char :=
  [digitChar (n / 1000 % 10), digitChar (n / 100 % 10), digitChar (n / 10 % 10),
   digitChar (n % 10)]

/-- Model of `civil.Date.String()`: the ISO form YYYY-MM-DD. -/
def dateChars (d : CalDate) : List Char :=
  pad4 d.year ++ '-' :: pad2 d.month ++ '-' :: pad2 d.day

/-- Gregorian leap year. -/
def isLeapYear (y : Nat) : Bool :=
  (y % 4 == 0 && y % 100 != 0) || y % 400 == 0

/-- Days in a month of the proleptic Gregorian calendar. -/
def daysInMonth (y m : Nat) : Nat :=
  if m = 2 then (if isLeapYear y then 29 else 28)
  else if m = 4 ∨ m = 6 ∨ m = 9 ∨ m = 11 then 30
  else 31

/-- Model of `civil.ParseDate` (time.Parse with layout 2006-01-02): exactly ten
characters YYYY-MM-DD, all digit positions numeric, month in 1..12 and day
within the month's length. -/
def parseDate (cs : List Char) : Option CalDate :=
  match cs with
  | [y1, y2, y3, y4, '-', m1, m2, '-', d1, d2] =>
    if (y1.isDigit && y2.isDigit && y3.isDigit && y4.isDigit &&
        m1.isDigit && m2.isDigit && d1.isDigit && d2.isDigit) then
      let y := digitToNat y1 * 1000 + digitToNat y2 * 100 + digitToNat y3 * 10 + digitToNat y4
      let m := digitToNat m1 * 10 + digitToNat m2
      let d := digitToNat d1 * 10 + digitToNat d2
      if 1 ≤ m ∧ m ≤ 12 ∧ 1 ≤ d ∧ d ≤ daysInMonth y m then some ⟨y, m, d⟩ else none
    else none
  | _ => none

/-- A digit string's value, empty allowed (callers enforce nonemptiness). -/
def parseNatDigits (cs : List Char) : Option Nat :=
  if cs.all Char.isDigit then some (cs.foldl (fun a c => a * 10 + digitToNat c) 0) else none

/-- Unsigned plain decimal: digits with an optional fractional part, at
least one digit overall. -/
def parseUnsigned (cs : List Char) : Option Rat :=
  match cs.splitOn '.' with
  | [ip] =>
    if ip = [] then none
    else (parseNatDigits ip).map (fun n => (n : Rat))
  | [ip, fp] =>
    if ip = [] ∧ fp = [] then none
    else
      match parseNatDigits ip, parseNatDigits fp with
      | some a, some b => some ((a : Rat) + (b : Rat) / ((10 : Rat) ^ fp.length))
      | _, _ => none
  | _ => none

/-- Model of `strconv.ParseFloat` restricted to the spec's "signed decimal numbers"
grammar (§6): optional sign, digits, optional dot and fraction digits. -/
def parseFloat (cs : List Char) : Option Rat :=
  match cs with
  | '-' :: rest => (parseUnsigned rest).map (fun q => -q)
  | '+' :: rest => parseUnsigned rest
  | _ => parseUnsigned cs

/-- The amount value a written amount string denotes: 0 when empty,
otherwise its decimal value. -/
def amountValue (cs : List Char) : Rat :=
  if cs = [] then 0 else (parseFloat cs).getD 0

/-- Dates `civil.Date` can both print as YYYY-MM-DD and re-parse. -/
def validDate (d : CalDate) : Bool :=
  decide (d.year ≤ 9999) && decide (1 ≤ d.month) && decide (d.month ≤ 12) &&
    decide (1 ≤ d.day) && decide (d.day ≤ daysInMonth d.year d.month)

/-- Final stage of `parseLogLine` (log.go:171-184): read the amount (a
warning, not a skip, on parse failure — the amount stays 0), read the
comment, then store the entry keyed by date and habit field.  The status
field is read back with `result[header[HeaderStatus]]`, an index that is
only bounds-checked when it was validated, so a status column lying beyond
the split fields is a runtime panic (`.error`). -/
def parseFinish (cd : CalDate) (fields : List (List Char)) (w : Nat) (header : Header)
    (entries : LogEntries) : Except Unit (LogEntries × Nat) :=
  let amountRes : Rat × Nat :=
    match header.amount with
    | some i =>
      if i < fields.length ∧ fields.getD i [] ≠ [] then
        match parseFloat (fields.getD i []) with
        | some a => (a, 0)
        | none => (0, 1)
      else (0, 0)
    | none => (0, 0)
  let comment : List Char :=
    match header.comment with
    | some i => if i < fields.length then fields.getD i [] else []
    | none => []
  let habitVal := fields.getD (header.habit.getD 0) []
  let statusIdx := header.status.getD 0
  if statusIdx < fields.length then
    .ok (insertEntry entries ⟨cd, habitVal⟩
      ⟨fields.getD statusIdx [], amountRes.1, comment⟩, w + amountRes.2)
  else .error ()

/-- Status stage of `parseLogLine` (log.go:163-169): when the status column
is present and within the fields, trim it in place and skip the record
unless it is exactly y, n or s. -/
def parseStatus (cd : CalDate) (fields : List (List Char)) (w : Nat) (header : Header)
    (entries : LogEntries) : Except Unit (LogEntries × Nat) :=
  match header.status with
  | some i =>
    if i < fields.length then
      let st := trimChars (fields.getD i [])
      if st = ['y'] ∨ st = ['n'] ∨ st = ['s'] then
        parseFinish cd (fields.set i st) w header entries
      else .ok (entries, w + 1)
    else parseFinish cd fields w header entries
  | none => parseFinish cd fields w header entries

/-- Habit stage of `parseLogLine` (log.go:156-160): skip the record when
the habit column is missing, out of range, or blank after trimming. -/
def parseHabit (cd : CalDate) (fields : List (List Char)) (w : Nat) (header : Header)
    (entries : LogEntries) : Except Unit (LogEntries × Nat) :=
  match header.habit with
  | some i =>
    if i < fields.length then
      if trimChars (fields.getD i []) = [] then .ok (entries, w + 1)
      else parseStatus cd fields w header entries
    else .ok (entries, w + 1)
  | none => .ok (entries, w + 1)

/-- Model of `storage.parseLogLine` (log.go:135-187): empty lines and lines opening
with '#' are ignored; the line is split on " : "; a field count differing
from the header's is a warning only; an unparseable date, a blank habit or
an invalid status code warns and skips the record; the warning count is
returned alongside the updated snapshot, and `.error` marks the runtime
panic of the unguarded final status access. -/
def parseLogLine (line : List Char) (header : Header) (entries : LogEntries) :
    Except Unit (LogEntries × Nat) :=
  if line = [] then .ok (entries, 0)
  else if line.headD ' ' = '#' then .ok (entries, 0)
  else
    let fields := splitFields line
    let w0 : Nat := if fields.length = header.size then 0 else 1
    match header.date with
    | some i =>
      if i < fields.length then
        match parseDate (fields.getD i []) with
        | some cd => parseHabit cd fields w0 header entries
        | none => .ok (entries, w0 + 1)
      else parseHabit ⟨0, 0, 0⟩ fields w0 header entries
    | none => parseHabit ⟨0, 0, 0⟩ fields w0 header entries

/-- The field slice assembled by `storage.WriteHabitLog` (log.go:205-221):
one slot per header column, each column's value written at its position. -/
def writeFields (d : CalDate) (habit result comment amount : List Char) (header : Header) :
    List (List Char) :=
  (List.range header.size).map (fun i =>
    if header.amount = some i then amount
    else if header.comment = some i then comment
    else if header.date = some i then dateChars d
    else if header.habit = some i then habit
    else if header.status = some i then result
    else [])

/-- The log line `storage.WriteHabitLog` appends: the fields joined by
" : " (the trailing newline and all file-system effects are outside the
embedding). -/
def WriteHabitLog (d : CalDate) (habit result comment amount : List Char)
    (header : Header) : List Char :=
  joinFields (writeFields d habit result comment amount header)

/-- Sanity of the split model on a concrete line. -/
theorem splitFields_example :
    splitFields ['a', ' ', ':', ' ', 'b', 'b', ' ', ':', ' ', 'c'] = [['a'], ['b', 'b'], ['c']] := by
  decide

/-- A well-formed record except for its amount field. -/
def badAmountLine : List Char := "2025-01-01 : Run : y : note : bad".toList

/-- C9: a record whose only defect is an unparseable amount is NOT skipped:
`parseLogLine` warns (count 1) but still adds the entry, with amount 0.
This refutes the claim that every malformed record is skipped with no entry
added. -/
theorem C9_counterexample :
    parseLogLine badAmountLine DefaultHeader [] =
      .ok ([(⟨⟨2025, 1, 1⟩, "Run".toList⟩, ⟨"y".toList, 0, "note".toList⟩)], 1) := by
  rfl

/-- C9 (amended): under the default header, for a non-comment line splitting
into five fields — an unparseable date, a blank habit, or an invalid status
code warns and skips the record, and parsing continues; an unparseable
amount warns but the record is still added with amount 0; a line with a
wrong field count alone is processed anyway (warning only); and a
non-comment line whose fields end before the status column crashes the
parser (runtime panic) instead of being skipped. -/
theorem C9_warning_semantics (f0 f1 f2 f3 f4 line : List Char) (entries : LogEntries)
    (hsplit : splitFields line = [f0, f1, f2, f3, f4])
    (hne : line ≠ [])
    (hhead : ¬(line.headD ' ' = '#')) :
    (parseDate f0 = none → parseLogLine line DefaultHeader entries = .ok (entries, 1)) ∧
    (∀ cd, parseDate f0 = some cd → trimChars f1 = [] →
      parseLogLine line DefaultHeader entries = .ok (entries, 1)) ∧
    (∀ cd, parseDate f0 = some cd → trimChars f1 ≠ [] →
      ¬(trimChars f2 = ['y'] ∨ trimChars f2 = ['n'] ∨ trimChars f2 = ['s']) →
      parseLogLine line DefaultHeader entries = .ok (entries, 1)) ∧
    (∀ cd st, parseDate f0 = some cd → trimChars f1 ≠ [] → trimChars f2 = st →
      (st = ['y'] ∨ st = ['n'] ∨ st = ['s']) → f4 ≠ [] → parseFloat f4 = none →
      parseLogLine line DefaultHeader entries =
        .ok (insertEntry entries ⟨cd, f1⟩ ⟨st, 0, f3⟩, 1)) ∧
    (∀ es2 : LogEntries,
      parseLogLine ("2025-01-01 : Run".toList) DefaultHeader es2 = .error ()) ∧
    (∀ es2 : LogEntries,
      parseLogLine ("2025-01-01 : Run : y : c : 1 : x".toList) DefaultHeader es2 =
        .ok (insertEntry es2 ⟨⟨2025, 1, 1⟩, "Run".toList⟩ ⟨"y".toList, 1, "c".toList⟩, 1)) := by
  refine ⟨?_, ?_, ?_, ?_, fun es2 => rfl, fun es2 => rfl⟩
  · intro hdate
    unfold parseLogLine
    rw [if_neg hne, if_neg hhead, hsplit]
    simp [DefaultHeader, Header.size, hdate]
  · intro cd hdate hhab
    unfold parseLogLine parseHabit
    rw [if_neg hne, if_neg hhead, hsplit]
    simp [DefaultHeader, Header.size, hdate, hhab]
  · intro cd hdate hhab hbadst
    unfold parseLogLine parseHabit parseStatus
    rw [if_neg hne, if_neg hhead, hsplit]
    simp [DefaultHeader, Header.size, hdate, hhab, hbadst]
  · rintro cd st hdate hhab hst (h | h | h) hf4 hbad <;> subst h <;>
    · unfold parseLogLine parseHabit parseStatus parseFinish
      rw [if_neg hne, if_neg hhead, hsplit]
      simp [DefaultHeader, Header.size, hdate, hhab, hst, hf4, hbad, List.set]

/-- Witness line for `C9_witness`. -/
def witnessLineC9 : List Char := "a : b : y : c : d".toList

/-- Witness for `C9_warning_semantics` at a concrete five-field line. -/
theorem C9_witness :
    (parseDate ['a'] = none → parseLogLine witnessLineC9 DefaultHeader [] = .ok ([], 1)) ∧
    (∀ cd, parseDate ['a'] = some cd → trimChars ['b'] = [] →
      parseLogLine witnessLineC9 DefaultHeader [] = .ok ([], 1)) ∧
    (∀ cd, parseDate ['a'] = some cd → trimChars ['b'] ≠ [] →
      ¬(trimChars ['y'] = ['y'] ∨ trimChars ['y'] = ['n'] ∨ trimChars ['y'] = ['s']) →
      parseLogLine witnessLineC9 DefaultHeader [] = .ok ([], 1)) ∧
    (∀ cd st, parseDate ['a'] = some cd → trimChars ['b'] ≠ [] → trimChars ['y'] = st →
      (st = ['y'] ∨ st = ['n'] ∨ st = ['s']) → ['d'] ≠ ([] : List Char) →
      parseFloat ['d'] = none →
      parseLogLine witnessLineC9 DefaultHeader [] =
        .ok (insertEntry [] ⟨cd, ['b']⟩ ⟨st, 0, ['c']⟩, 1)) ∧
    (∀ es2 : LogEntries,
      parseLogLine ("2025-01-01 : Run".toList) DefaultHeader es2 = .error ()) ∧
    (∀ es2 : LogEntries,
      parseLogLine ("2025-01-01 : Run : y : c : 1 : x".toList) DefaultHeader es2 =
        .ok (insertEntry es2 ⟨⟨2025, 1, 1⟩, "Run".toList⟩ ⟨"y".toList, 1, "c".toList⟩, 1)) :=
  C9_warning_semantics ['a'] ['b'] ['y'] ['c'] ['d'] witnessLineC9 []
    (by decide) (by decide) (by decide)

/-- Reading back the digit character of `k < 10`. -/
theorem digitToNat_digitChar (k : Nat) (hk : k < 10) : digitToNat (digitChar k) = k := by
  interval_cases k <;> decide

/-- The digit character of `k < 10` is a digit. -/
theorem isDigit_digitChar (k : Nat) (hk : k < 10) : (digitChar k).isDigit = true := by
  interval_cases k <;> decide

/-- Months never exceed 31 days. -/
theorem daysInMonth_le (y m : Nat) : daysInMonth y m ≤ 31 := by
  unfold daysInMonth
  split_ifs <;> norm_num

/-- Printing a valid date as YYYY-MM-DD and re-parsing it returns the same
date. -/
theorem parseDate_dateChars (d : CalDate) (hv : validDate d = true) :
    parseDate (dateChars d) = some d := by
  rcases d with ⟨y, m, dd⟩
  simp only [validDate, Bool.and_eq_true, decide_eq_true_eq] at hv
  obtain ⟨⟨⟨⟨hy, hm1⟩, hm2⟩, hd1⟩, hd2⟩ := hv
  have hd3 : dd ≤ 31 := le_trans hd2 (daysInMonth_le y m)
  have h1 : y / 1000 % 10 < 10 := Nat.mod_lt _ (by norm_num)
  have h2 : y / 100 % 10 < 10 := Nat.mod_lt _ (by norm_num)
  have h3 : y / 10 % 10 < 10 := Nat.mod_lt _ (by norm_num)
  have h4 : y % 10 < 10 := Nat.mod_lt _ (by norm_num)
  have h5 : m / 10 % 10 < 10 := Nat.mod_lt _ (by norm_num)
  have h6 : m % 10 < 10 := Nat.mod_lt _ (by norm_num)
  have h7 : dd / 10 % 10 < 10 := Nat.mod_lt _ (by norm_num)
  have h8 : dd % 10 < 10 := Nat.mod_lt _ (by norm_num)
  unfold dateChars pad4 pad2
  simp only [List.cons_append, List.nil_append]
  unfold parseDate
  simp only [isDigit_digitChar _ h1, isDigit_digitChar _ h2, isDigit_digitChar _ h3,
    isDigit_digitChar _ h4, isDigit_digitChar _ h5, isDigit_digitChar _ h6,
    isDigit_digitChar _ h7, isDigit_digitChar _ h8, Bool.and_self, if_true,
    digitToNat_digitChar _ h1, digitToNat_digitChar _ h2, digitToNat_digitChar _ h3,
    digitToNat_digitChar _ h4, digitToNat_digitChar _ h5, digitToNat_digitChar _ h6,
    digitToNat_digitChar _ h7, digitToNat_digitChar _ h8]
  have hyr : y / 1000 % 10 * 1000 + y / 100 % 10 * 100 + y / 10 % 10 * 10 + y % 10 = y := by
    omega
  have hmr : m / 10 % 10 * 10 + m % 10 = m := by omega
  have hdr : dd / 10 % 10 * 10 + dd % 10 = dd := by omega
  rw [hyr, hmr, hdr]
  rw [if_pos ⟨hm1, hm2, hd1, hd2⟩]

/-- Reading slot `j` of a mapped range. -/
theorem getD_range_map {α : Type} (f : Nat → α) (n j : Nat) (dflt : α) (hj : j < n) :
    ((List.range n).map f).getD j dflt = f j := by
  rw [List.getD_eq_getElem?_getD, List.getElem?_map, List.getElem?_range hj]
  rfl

/-- Reading an unmodified slot after `set`. -/
theorem getD_set_ne {α : Type} (l : List α) (i j : Nat) (v dflt : α) (hij : i ≠ j) :
    (l.set i v).getD j dflt = l.getD j dflt := by
  rw [List.getD_eq_getElem?_getD, List.getD_eq_getElem?_getD, List.getElem?_set_ne hij]

/-- Reading the modified slot after `set`. -/
theorem getD_set_self {α : Type} (l : List α) (i : Nat) (v dflt : α) (hi : i < l.length) :
    (l.set i v).getD i dflt = v := by
  rw [List.getD_eq_getElem?_getD, List.getElem?_set_self hi]
  rfl

/-- C10: the habit name " " is nonempty and separator-free, yet the record
`WriteHabitLog` formats for it is rejected at parse time — the habit field
trims to empty, so the round trip adds no entry (one warning instead).
The claim's hypotheses hold but its conclusion fails. -/
theorem C10_counterexample :
    parseLogLine (WriteHabitLog ⟨2025, 1, 1⟩ [' '] ['y'] [] [] DefaultHeader)
      DefaultHeader [] = .ok ([], 1) := by
  rfl

/-- C10 (amended): for a header placing the five columns at distinct
positions 0..4, a printable date, a habit name that is nonempty after
trimming, a status in {y, n, s}, an amount that is empty or a parseable
decimal, and fields that the separator splits back apart (no " : " inside a
field, no field ending in " :", and the first slot not opening with '#'),
parsing the very line `WriteHabitLog` formats adds exactly one entry keyed
by the date and habit, carrying the written status, comment, and the
amount's decimal value (0 when empty), with no warning. -/
theorem C10_roundtrip (d : CalDate) (habit result comment amount : List Char)
    (header : Header) (entries : LogEntries) (ia ib ic id' ie' : Nat)
    (hhd : header.date = some ia) (hhh : header.habit = some ib)
    (hhs : header.status = some ic) (hhc : header.comment = some id')
    (hha : header.amount = some ie')
    (hb1 : ia < 5) (hb2 : ib < 5) (hb3 : ic < 5) (hb4 : id' < 5) (hb5 : ie' < 5)
    (hab : ia ≠ ib) (hac : ia ≠ ic) (had : ia ≠ id') (hae : ia ≠ ie')
    (hbc : ib ≠ ic) (hbd : ib ≠ id') (hbe : ib ≠ ie')
    (hcd : ic ≠ id') (hce : ic ≠ ie') (hde : id' ≠ ie')
    (hv : validDate d = true)
    (hhabit : trimChars habit ≠ [])
    (hres : result = ['y'] ∨ result = ['n'] ∨ result = ['s'])
    (hamount : amount = [] ∨ (parseFloat amount).isSome = true)
    (hsplit : splitFields (WriteHabitLog d habit result comment amount header) =
      writeFields d habit result comment amount header)
    (hhead : ¬((WriteHabitLog d habit result comment amount header).headD ' ' = '#')) :
    parseLogLine (WriteHabitLog d habit result comment amount header) header entries =
      .ok (insertEntry entries ⟨d, habit⟩ ⟨result, amountValue amount, comment⟩, 0) := by
  have hsize : header.size = 5 := by
    simp [Header.size, hhd, hhh, hhs, hhc, hha]
  have hW5 : ∀ j, j < 5 → j < header.size := fun j hj => by
    rw [hsize]
    exact hj
  have hgda : (writeFields d habit result comment amount header).getD ia [] = dateChars d := by
    unfold writeFields
    rw [getD_range_map _ _ _ _ (hW5 ia hb1), hha, hhc, hhd]
    simp [Ne.symm hae, Ne.symm had]
  have hgdb : (writeFields d habit result comment amount header).getD ib [] = habit := by
    unfold writeFields
    rw [getD_range_map _ _ _ _ (hW5 ib hb2), hha, hhc, hhd, hhh]
    simp [Ne.symm hbe, Ne.symm hbd, hab]
  have hgdc : (writeFields d habit result comment amount header).getD ic [] = result := by
    unfold writeFields
    rw [getD_range_map _ _ _ _ (hW5 ic hb3), hha, hhc, hhd, hhh, hhs]
    simp [Ne.symm hce, Ne.symm hcd, hac, hbc]
  have hgdd : (writeFields d habit result comment amount header).getD id' [] = comment := by
    unfold writeFields
    rw [getD_range_map _ _ _ _ (hW5 id' hb4), hha, hhc]
    simp [Ne.symm hde]
  have hgde : (writeFields d habit result comment amount header).getD ie' [] = amount := by
    unfold writeFields
    rw [getD_range_map _ _ _ _ (hW5 ie' hb5), hha]
    simp
  have hlen : (writeFields d habit result comment amount header).length = 5 := by
    unfold writeFields
    simp [hsize]
  have hne : WriteHabitLog d habit result comment amount header ≠ [] := by
    intro h0
    rw [h0] at hsplit
    have hl := congrArg List.length hsplit
    rw [hlen] at hl
    simp [splitFields, splitAux] at hl
  have htrim : trimChars result = result := by
    rcases hres with hr | hr | hr <;> rw [hr] <;> rfl
  have step1 : parseLogLine (WriteHabitLog d habit result comment amount header) header entries
      = parseHabit d (writeFields d habit result comment amount header) 0 header entries := by
    unfold parseLogLine
    rw [if_neg hne, if_neg hhead, hsplit, hhd]
    dsimp only
    rw [hlen, hsize, if_pos hb1, hgda, parseDate_dateChars d hv]
    dsimp only
    rw [if_pos (rfl : (5 : Nat) = 5)]
  have step2 : parseHabit d (writeFields d habit result comment amount header) 0 header entries
      = parseStatus d (writeFields d habit result comment amount header) 0 header entries := by
    unfold parseHabit
    rw [hhh]
    dsimp only
    rw [hlen, if_pos hb2, hgdb, if_neg hhabit]
  have step3 : parseStatus d (writeFields d habit result comment amount header) 0 header entries
      = parseFinish d ((writeFields d habit result comment amount header).set ic result) 0
          header entries := by
    unfold parseStatus
    rw [hhs]
    dsimp only
    rw [hlen, if_pos hb3, hgdc, htrim, if_pos hres]
  have hslen : ((writeFields d habit result comment amount header).set ic result).length = 5 := by
    rw [List.length_set, hlen]
  have hsb : ((writeFields d habit result comment amount header).set ic result).getD ib []
      = habit := by
    rw [getD_set_ne _ _ _ _ _ (Ne.symm hbc), hgdb]
  have hsc : ((writeFields d habit result comment amount header).set ic result).getD ic []
      = result :=
    getD_set_self _ _ _ _ (by rw [hlen]; exact hb3)
  have hsd : ((writeFields d habit result comment amount header).set ic result).getD id' []
      = comment := by
    rw [getD_set_ne _ _ _ _ _ hcd, hgdd]
  have hse : ((writeFields d habit result comment amount header).set ic result).getD ie' []
      = amount := by
    rw [getD_set_ne _ _ _ _ _ hce, hgde]
  have step4 : parseFinish d ((writeFields d habit result comment amount header).set ic result) 0
      header entries
      = .ok (insertEntry entries ⟨d, habit⟩ ⟨result, amountValue amount, comment⟩, 0) := by
    unfold parseFinish
    rw [hha, hhc, hhs, hhh]
    dsimp only
    rw [hslen]
    simp only [Option.getD_some]
    rw [hsb, hsc, hsd, hse, if_pos hb4, if_pos hb3]
    rcases hamount with ham | ham
    · rw [ham]
      rw [if_neg (by simp)]
      have hav0 : amountValue ([] : List Char) = 0 := rfl
      rw [hav0]
      rfl
    · obtain ⟨av, hav⟩ := Option.isSome_iff_exists.mp ham
      have hamne : amount ≠ [] := by
        intro h0
        have hpf : parseFloat ([] : List Char) = none := rfl
        rw [h0, hpf] at hav
        exact absurd hav (by simp)
      rw [if_pos ⟨hb5, hamne⟩, hav]
      dsimp only
      have havv : amountValue amount = av := by
        unfold amountValue
        rw [if_neg hamne, hav]
        rfl
      rw [havv]
  rw [step1, step2, step3, step4]

/-- Witness for `C10_roundtrip`: the default header, date 2025-01-02, habit
"Run", status y, comment "ok" and an empty amount round-trip into exactly
one entry. -/
theorem C10_witness :
    parseLogLine
      (WriteHabitLog ⟨2025, 1, 2⟩ "Run".toList ['y'] "ok".toList [] DefaultHeader)
      DefaultHeader [] =
      .ok (insertEntry [] ⟨⟨2025, 1, 2⟩, "Run".toList⟩
        ⟨['y'], amountValue [], "ok".toList⟩, 0) :=
  C10_roundtrip ⟨2025, 1, 2⟩ "Run".toList ['y'] "ok".toList [] DefaultHeader [] 0 1 2 3 4
    rfl rfl rfl rfl rfl
    (by decide) (by decide) (by decide) (by decide) (by decide)
    (by decide) (by decide) (by decide) (by decide) (by decide)
    (by decide) (by decide) (by decide) (by decide) (by decide)
    (by decide) (by decide) (Or.inl rfl) (Or.inl rfl) (by decide) (by decide)
